import Mathlib

/-!
Verification development for the cronuseo authorization service.

The Go sources under `src/` are embedded shallowly: structs become Lean
structures, stateful store operations become explicit state passing, and
fallible operations return an error component.  Where a repository function
is not part of the provided sources (only its caller or its declaration is),
its model is written from the specification and its doc comment says so.
-/

namespace Cronuseo

/- ===== Data model (internal/mongo_entity/organization.go) ===== -/

/-- Permission: an (action identifier, resource identifier) pair owned by a Role. -/
structure Permission where
  action : String
  resource : String
deriving DecidableEq, Repr

/-- Action (mongo_entity.Action): identifier + display name, owned by one Resource. -/
structure Action where
  id : String
  identifier : String
  displayName : String
deriving DecidableEq, Repr

/-- Resource (mongo_entity.Resource): identifier, display name, declared Actions. -/
structure Resource where
  id : String
  identifier : String
  displayName : String
  actions : List Action
deriving DecidableEq, Repr

/-- User (mongo_entity.User): identifier/username; role/group back references
are not needed by the claims below and are omitted. -/
structure User where
  id : String
  username : String
  identifier : String
deriving DecidableEq, Repr

/-- Role (mongo_entity.Role): member user ids, member group ids, permission set. -/
structure Role where
  id : String
  identifier : String
  displayName : String
  users : List String
  groups : List String
  permissions : List Permission
deriving DecidableEq, Repr

/-- Group (mongo_entity.Group): member user ids and member role ids. -/
structure Group where
  id : String
  identifier : String
  displayName : String
  users : List String
  roles : List String
deriving DecidableEq, Repr

/-- Organization (mongo_entity.Organization): the tenant document owning all
resources, users, roles and groups. -/
structure Organization where
  id : String
  identifier : String
  displayName : String
  apiKey : String
  resources : List Resource
  users : List User
  roles : List Role
  groups : List Group
deriving DecidableEq, Repr

/-- Error taxonomy of internal/util: NotFound, InvalidInput, AlreadyExists
(each carrying its Path message). -/
inductive SvcError where
  | notFound (path : String)
  | invalidInput (path : String)
  | alreadyExists (path : String)
deriving DecidableEq, Repr

/- ===== Role repository operations =====
The Mongo repository backing internal/role/service.go is not under src/; the
operations below model it from the spec, against the Organization document
defined above. -/

/-- Modelled from the spec: `repo.CheckResourceActionExists` is not under src/
(only its caller in the role service is).  Per §3 invariant 1, an
`(action, resource)` pair is declared exactly when the organization owns a
Resource with that identifier declaring an Action with that identifier. -/
def CheckResourceActionExists (org : Organization) (res act : String) : Bool :=
  org.resources.any (fun r => r.identifier == res && r.actions.any (fun a => a.identifier == act))

/-- Modelled from the spec: `repo.CheckUserExistById` is not under src/; a user
id exists when the organization owns a user with that id (§3 invariant 3). -/
def CheckUserExistById (org : Organization) (userId : String) : Bool :=
  org.users.any (fun u => u.id == userId)

/-- Modelled from the spec: `repo.CheckUserAlreadyAssignToRoleById` is not under
src/; a user is assigned when the role's member-user list contains the id. -/
def CheckUserAlreadyAssignToRoleById (org : Organization) (roleId userId : String) : Bool :=
  org.roles.any (fun r => r.id == roleId && r.users.contains userId)

/-- Modelled from the spec: `repo.CheckRoleExistsByIdentifier` is not under src/;
a role identifier exists when some owned role carries it. -/
def CheckRoleExistsByIdentifier (org : Organization) (identifier : String) : Bool :=
  org.roles.any (fun r => r.identifier == identifier)

/-- Modelled from the spec: `repo.Get` for roles is not under src/; it fetches
the organization's role with the given id. -/
def repoGetRole (org : Organization) (id : String) : Option Role :=
  org.roles.find? (fun r => r.id == id)

/-- Requests of internal/role/service.go (CreateRoleRequest). -/
structure CreateRoleRequest where
  identifier : String
  displayName : String
  users : List String
deriving DecidableEq, Repr

/-- Requests of internal/role/service.go (UpdateRoleRequest; field `RemovedUser`
keeps its source name). -/
structure UpdateRoleRequest where
  displayName : Option String
  addedUsers : List String
  removedUser : List String
deriving DecidableEq, Repr

/-- PatchRolePermissionRequest of internal/role/service.go. -/
structure PatchRolePermissionRequest where
  addedPermission : List Permission
  removedPermission : List Permission
deriving DecidableEq, Repr

/-- PatchRolePermission of internal/role/service.go: the struct the service
passes to `repo.PatchPermission`. -/
structure PatchRolePermission where
  addedPermission : List Permission
  removedPermission : List Permission
deriving DecidableEq, Repr

/-- Modelled from the spec: `repo.PatchPermission` is not under src/; per §4.5
it applies the additions and the removals it receives against the role's
permission set as one write. -/
def repoPatchPermission (org : Organization) (roleId : String) (patch : PatchRolePermission) :
    Organization :=
  { org with roles := org.roles.map (fun r =>
      if r.id == roleId then
        { r with permissions :=
            (r.permissions.filter (fun p => !(patch.removedPermission.contains p))) ++
            (patch.addedPermission.filter (fun p => !(r.permissions.contains p))) }
      else r) }

/-- Modelled from the spec: `repo.Create` for roles is not under src/; it
appends the new role document to the organization. -/
def repoCreateRole (org : Organization) (role : Role) : Organization :=
  { org with roles := org.roles ++ [role] }

/-- Modelled from the spec: `repo.Update` for roles is not under src/; per §4.5
it applies the display name and the added/removed member lists it receives to
the role's member-user list. -/
def repoUpdateRole (org : Organization) (id : String) (displayName : Option String)
    (addedUsers removedUsers : List String) : Organization :=
  { org with roles := org.roles.map (fun r =>
      if r.id == id then
        { r with displayName := displayName.getD r.displayName,
                 users := (r.users.filter (fun u => !(removedUsers.contains u))) ++ addedUsers }
      else r) }

/- ===== Role service (internal/role/service.go) =====
Each operation returns the reported error (if any) together with the resulting
store state; an error paired with the unchanged organization embeds the Go
early `return` before any repository write. -/

/-- service.PatchPermission (src/internal/role/service.go:245-263): every added
permission is validated against `CheckResourceActionExists`, returning
InvalidInput for the first offending pair; then the repository patch is invoked
with ONLY the added permissions — the source constructs
`PatchRolePermission{AddedPermission: req.AddedPermission}` and never reads
`req.RemovedPermission`, so the removed list forwarded is the zero value. -/
def PatchPermission (org : Organization) (roleId : String) (req : PatchRolePermissionRequest) :
    Option SvcError × Organization :=
  match req.addedPermission.find? (fun p => !(CheckResourceActionExists org p.resource p.action)) with
  | some p =>
      (some (.invalidInput ("Invalid permission, Resource : " ++ p.resource ++ " Action : " ++ p.action)), org)
  | none =>
      (none, repoPatchPermission org roleId
        { addedPermission := req.addedPermission, removedPermission := [] })

/-- service.Create (src/internal/role/service.go:93-132): validation (ozzo
`Required` on Identifier), duplicate-identifier guard, then an existence check
of every listed user id before the create write; on success the created role is
read back. -/
def roleCreate (org : Organization) (req : CreateRoleRequest) (roleId : String) :
    Option SvcError × Organization :=
  if req.identifier == "" then
    (some (.invalidInput "Invalid input for role."), org)
  else if CheckRoleExistsByIdentifier org req.identifier then
    (some (.alreadyExists ("Role : " ++ req.identifier ++ " already exists.")), org)
  else
    match req.users.find? (fun u => !(CheckUserExistById org u)) with
    | some u => (some (.invalidInput ("Invalid user id " ++ u)), org)
    | none =>
        let newOrg := repoCreateRole org
          { id := roleId, identifier := req.identifier, displayName := req.displayName,
            users := req.users, groups := [], permissions := [] }
        match repoGetRole newOrg roleId with
        | some _ => (none, newOrg)
        | none => (some (.notFound "Role"), newOrg)

/-- service.Update (src/internal/role/service.go:135-185): role lookup, then an
existence check of every added and removed user id, then the genuinely
new/removed memberships are computed (skipping already-assigned additions and
not-assigned removals) and written; the updated role is read back. -/
def roleUpdate (org : Organization) (id : String) (req : UpdateRoleRequest) :
    Option SvcError × Organization :=
  match repoGetRole org id with
  | none => (some (.notFound ("Role " ++ id ++ " not exists.")), org)
  | some _ =>
    match req.addedUsers.find? (fun u => !(CheckUserExistById org u)) with
    | some u => (some (.invalidInput ("Invalid role id " ++ u)), org)
    | none =>
      match req.removedUser.find? (fun u => !(CheckUserExistById org u)) with
      | some u => (some (.invalidInput ("Invalid role id " ++ u)), org)
      | none =>
        let addedUsers := req.addedUsers.filter
          (fun u => !(CheckUserAlreadyAssignToRoleById org id u))
        let removedUsers := req.removedUser.filter
          (fun u => CheckUserAlreadyAssignToRoleById org id u)
        let newOrg := repoUpdateRole org id req.displayName addedUsers removedUsers
        match repoGetRole newOrg id with
        | some _ => (none, newOrg)
        | none => (some (.notFound ("Role " ++ id ++ " not exists.")), newOrg)

/- ===== Check engine (spec-modelled) =====
The permission service implementing Check and its batch variants is not under
src/ (only the HTTP handlers in src/unnamed/part_000 and the gRPC wrapper in
src/internal/check/grpc.go are); the definitions below are modelled from the
spec (§4.1, §4.2). -/

/-- Tuple: standalone (subject, action, resource) assertion (§3). -/
structure Tuple where
  subject : String
  action : String
  resource : String
deriving DecidableEq, Repr

/-- Modelled from the spec: ResolveSubject (§4.1) is not under src/.  The
subject reference (user id or username) resolves to the canonical user id,
unioned with every group the user is a direct member of; `none` when the
subject does not exist in the organization. -/
def ResolveSubject (org : Organization) (subjectRef : String) : Option (String × List String) :=
  match org.users.find? (fun u => u.id == subjectRef || u.username == subjectRef) with
  | none => none
  | some u =>
      some (u.id, u.id :: (org.groups.filter (fun g => g.users.contains u.id)).map (fun g => g.id))

/-- Modelled from the spec: the single-pair Check algorithm (§4.2) is not under
src/.  InvalidInput when the pair is not declared; NotFound when the subject is
absent; otherwise true iff some role whose member-users or member-groups meet
the subject's identity tokens grants the pair, or a tuple directly asserts it
for the canonical user id. -/
def Check (org : Organization) (tuples : List Tuple) (subjectRef action resource : String) :
    Except SvcError Bool :=
  if !(CheckResourceActionExists org resource action) then
    .error (.invalidInput ("Action " ++ action ++ " is not declared on resource " ++ resource))
  else
    match ResolveSubject org subjectRef with
    | none => .error (.notFound ("Subject " ++ subjectRef))
    | some (uid, tokens) =>
        .ok ((org.roles.any (fun r =>
                (r.users.any (fun u => tokens.contains u) ||
                 r.groups.any (fun g => tokens.contains g)) &&
                r.permissions.contains { action := action, resource := resource })) ||
             tuples.any (fun t => t.subject == uid && t.action == action && t.resource == resource))

/-- Modelled from the spec: CheckAll (§4.2) is not under src/; it evaluates the
single-pair Check independently per (action, resource) pair, order-preserving. -/
def CheckAll (org : Organization) (tuples : List Tuple) (subjectRef : String)
    (pairs : List (String × String)) : List (Except SvcError Bool) :=
  pairs.map (fun pr => Check org tuples subjectRef pr.1 pr.2)

/-- Modelled from the spec: CheckPermissions (§4.2) is not under src/; it
evaluates the single-pair Check for each action against the same resource. -/
def CheckPermissions (org : Organization) (tuples : List Tuple) (subjectRef : String)
    (actions : List String) (resource : String) : List (Except SvcError Bool) :=
  actions.map (fun a => Check org tuples subjectRef a resource)

/- ===== SQL repositories (src/src/repositories/group.go) ===== -/

/-- A row of the `tenant_group` table. -/
structure GroupRow where
  tenantId : String
  groupId : String
  groupKey : String
  name : String
deriving DecidableEq, Repr

/-- A row of the `group_user` table (the table has no tenant column). -/
structure GroupUserRow where
  groupId : String
  userId : String
deriving DecidableEq, Repr

/-- The relational store the group repository queries. -/
structure SqlDB where
  tenantGroups : List GroupRow
  groupUsers : List GroupUserRow
deriving DecidableEq, Repr

/-- CheckGroupExistsById (group.go:216-222): `SELECT exists (SELECT group_id
FROM tenant_group WHERE group_id = $1)` — the query is keyed by group id only;
no tenant identifier appears. -/
def CheckGroupExistsById (db : SqlDB) (id : String) : Bool :=
  db.tenantGroups.any (fun g => g.groupId == id)

/-- CheckGroupExistsByKey (group.go:224-231): keyed by tenant_id AND group_key. -/
def CheckGroupExistsByKey (db : SqlDB) (tenantId key : String) : Bool :=
  db.tenantGroups.any (fun g => g.tenantId == tenantId && g.groupKey == key)

/-- IsUserInGroup (group.go:233-240): `SELECT exists (SELECT user_id FROM
group_user WHERE group_id = $1 AND user_id = $2)` — keyed by group id and user
id only; no tenant identifier appears. -/
def IsUserInGroup (db : SqlDB) (groupId userId : String) : Bool :=
  db.groupUsers.any (fun r => r.groupId == groupId && r.userId == userId)

/-- The restriction of the store to one tenant: the tenant's groups, and the
membership rows attached to those groups.  An organization-scoped query must
answer identically on the full store and on the caller's restriction. -/
def tenantView (db : SqlDB) (tenantId : String) : SqlDB :=
  { tenantGroups := db.tenantGroups.filter (fun g => g.tenantId == tenantId),
    groupUsers := db.groupUsers.filter (fun r =>
      db.tenantGroups.any (fun g => g.groupId == r.groupId && g.tenantId == tenantId)) }

/-- One operation of models.GroupPatchRequest. -/
structure GroupPatchOperation where
  operation : String
  users : List String
deriving DecidableEq, Repr

/-- models.GroupPatchRequest: a list of add/remove operations. -/
structure GroupPatchRequest where
  operations : List GroupPatchOperation
deriving DecidableEq, Repr

/-- The "add" arm of PatchGroup (group.go:159-179): each user is checked with
`IsUserInGroup` against the store as read outside the transaction (`initial`);
already-members are skipped, the rest are inserted into the transaction rows. -/
def patchGroupAdd (initial : SqlDB) (groupId : String) (rows : List GroupUserRow)
    (users : List String) : List GroupUserRow :=
  users.foldl (fun acc u =>
    if IsUserInGroup initial groupId u then acc
    else acc ++ [{ groupId := groupId, userId := u }]) rows

/-- The "remove" arm of PatchGroup (group.go:181-201): non-members are skipped,
the rest have their membership rows deleted from the transaction rows. -/
def patchGroupRemove (initial : SqlDB) (groupId : String) (rows : List GroupUserRow)
    (users : List String) : List GroupUserRow :=
  users.foldl (fun acc u =>
    if !(IsUserInGroup initial groupId u) then acc
    else acc.filter (fun r => !(r.groupId == groupId && r.userId == u))) rows

/-- One operation dispatch of PatchGroup (group.go:156-203): operations other
than "add"/"remove" fall through the switch and do nothing. -/
def patchGroupStep (initial : SqlDB) (groupId : String) (rows : List GroupUserRow)
    (op : GroupPatchOperation) : List GroupUserRow :=
  if op.operation == "add" then patchGroupAdd initial groupId rows op.users
  else if op.operation == "remove" then patchGroupRemove initial groupId rows op.users
  else rows

/-- PatchGroup (group.go:148-214): the operations run inside one transaction
that commits at the end; membership reads go outside the transaction and so
see the initial store. -/
def PatchGroup (db : SqlDB) (groupId : String) (patch : GroupPatchRequest) : SqlDB :=
  { db with groupUsers := patch.operations.foldl (patchGroupStep db groupId) db.groupUsers }

/- ===== Resource service (src/internal/resource/service.go) ===== -/

/-- entity.Resource as used by the resource service: ID, Key, Name. -/
structure EntResource where
  id : String
  key : String
  name : String
deriving DecidableEq, Repr

/-- The store behind the resource repository: (organization id, resource) rows. -/
structure ResourceStore where
  resources : List (String × EntResource)
deriving DecidableEq, Repr

/-- Modelled from the call site: `repo.ExistByKey` is not under src/, and the
service (service.go:80) passes it ONLY the key — no organization identifier —
so it can only match the key across all organizations. -/
def ExistByKey (st : ResourceStore) (key : String) : Bool :=
  st.resources.any (fun p => p.2.key == key)

/-- Modelled from the spec: `repo.Get` for resources is not under src/; it
fetches the given organization's resource with the given id. -/
def resourceGet (st : ResourceStore) (orgId id : String) : Option EntResource :=
  (st.resources.find? (fun p => p.1 == orgId && p.2.id == id)).map (fun p => p.2)

/-- CreateResourceRequest of the resource service (Key required). -/
structure CreateResourceRequest where
  key : String
  name : String
deriving DecidableEq, Repr

/-- UpdateResourceRequest of the resource service (no required field, so ozzo
validation always passes). -/
structure UpdateResourceRequest where
  name : String
deriving DecidableEq, Repr

/-- service.Create (src/internal/resource/service.go:71-101): validation, then
the duplicate-key check via `ExistByKey` (organization-independent, see above),
then the create write.  The second component is the list of store writes the
call performs. -/
def resourceCreate (st : ResourceStore) (orgId : String) (req : CreateResourceRequest)
    (freshId : String) : Option SvcError × List (String × EntResource) :=
  if req.key == "" then
    (some (.invalidInput "Invalid input for resource."), [])
  else if ExistByKey st req.key then
    (some (.alreadyExists ("Resource : " ++ req.key ++ " already exists.")), [])
  else
    (none, [(orgId, { id := freshId, key := req.key, name := req.name })])

/-- service.Update (src/internal/resource/service.go:104-125): fetch the
resource, NotFound (and no write) when absent; otherwise only the Name field is
replaced and the record is written back.  The second component is the list of
store writes the call performs. -/
def resourceUpdate (st : ResourceStore) (orgId id : String) (req : UpdateResourceRequest) :
    Except SvcError EntResource × List (String × EntResource) :=
  match resourceGet st orgId id with
  | none => (.error (.notFound ("Resource " ++ id ++ " not exists.")), [])
  | some r =>
      let updated := { r with name := req.name }
      (.ok updated, [(orgId, updated)])

/- ===== GORM repositories (second chunk of src/internal/resource/service.go,
package repositories) ===== -/

/-- A resource row of the GORM store. -/
structure ResourceRow where
  id : String
  projectId : String
deriving DecidableEq, Repr

/-- An action row: each action is owned by exactly one resource. -/
structure ActionRow where
  id : String
  resourceId : String
deriving DecidableEq, Repr

/-- A role-permission row referencing an action on a resource. -/
structure ResourceRoleRow where
  roleId : String
  actionId : String
  resourceId : String
deriving DecidableEq, Repr

/-- The GORM store the repositories package queries. -/
structure GormDB where
  resources : List ResourceRow
  actions : List ActionRow
  resourceRoles : List ResourceRoleRow
deriving DecidableEq, Repr

/-- Modelled from the spec: `DeleteAllResourceActions` is not under src/ (only
its caller `DeleteResource` is); per §3 deleting a Resource cascades to the
removal of its Actions. -/
def DeleteAllResourceActions (db : GormDB) (resId : String) : GormDB :=
  { db with actions := db.actions.filter (fun a => !(a.resourceId == resId)) }

/-- Modelled from the spec: `DeleteAllResourceRoles` is not under src/ (only
its caller `DeleteResource` is); per §3 deleting a Resource cascades to the
removal of any Role Permissions referencing it. -/
def DeleteAllResourceRoles (db : GormDB) (resId : String) : GormDB :=
  { db with resourceRoles := db.resourceRoles.filter (fun p => !(p.resourceId == resId)) }

/-- repositories.DeleteResource (service.go second chunk:189-193): cascade the
resource's actions and role permissions, then delete the resource row. -/
def DeleteResource (db : GormDB) (resId : String) : GormDB :=
  let db1 := DeleteAllResourceActions db resId
  let db2 := DeleteAllResourceRoles db1 resId
  { db2 with resources := db2.resources.filter (fun r => !(r.id == resId)) }

/-- §3 invariant 1: every role-permission row references an existing action
declared on an existing resource. -/
def PermissionRefsValid (db : GormDB) : Prop :=
  ∀ p ∈ db.resourceRoles,
    (∃ a ∈ db.actions, a.id = p.actionId ∧ a.resourceId = p.resourceId) ∧
    (∃ r ∈ db.resources, r.id = p.resourceId)

/- ===== gRPC check boundary (src/internal/check/grpc.go) ===== -/

/-- Incoming call metadata: a map from keys to value slices, or absent. -/
abbrev Metadata := List (String × List String)

/-- metadata.MD.Get: the value slice stored under the key, empty when the key
has no entry. -/
def mdGet (md : Metadata) (k : String) : List String :=
  ((md.find? (fun p => p.1 == k)).map (fun p => p.2)).getD []

/-- proto.GrpcCheckRequest. -/
structure GrpcCheckRequest where
  username : String
  action : String
  resource : String
  organization : String
deriving DecidableEq, Repr

/-- proto.GrpcCheckResponse. -/
structure GrpcCheckResponse where
  allow : Bool
deriving DecidableEq, Repr

/-- The observable outcome of a Go handler: a runtime panic, a returned error,
or a returned response. -/
inductive GrpcResult (α : Type) where
  | panicked
  | err (msg : String)
  | ok (a : α)
deriving DecidableEq, Repr

/-- Modelled from the spec: util.HandleError is not under src/; it renders the
engine error's path as the transport error message. -/
def handleErrorMsg : SvcError → String
  | .notFound p => p
  | .invalidInput p => p
  | .alreadyExists p => p

/-- grpcService.Check (src/internal/check/grpc.go:23-44): when metadata is
absent a plain error is returned; otherwise the code evaluates
`md.Get("API_KEY")[0]` — indexing the value slice WITHOUT a length check, which
is a runtime panic (index out of range) whenever the API_KEY entry is missing —
and then invokes the check service, mapping its error through util.HandleError.
The check service itself is not under src/ and is a parameter. -/
def grpcCheck (svc : GrpcCheckRequest → String → Except SvcError Bool)
    (md : Option Metadata) (req : GrpcCheckRequest) : GrpcResult GrpcCheckResponse :=
  match md with
  | none => .err "missing metadata from request"
  | some md =>
      match (mdGet md "API_KEY").head? with
      | none => .panicked
      | some apiKey =>
          match svc req apiKey with
          | .error e => .err (handleErrorMsg e)
          | .ok allow => .ok { allow := allow }

/- ===== HTTP permission handlers (src/unnamed/part_000) ===== -/

/-- entity.PermissionPatchRequest bound by the patchPermissions handler. -/
structure PermissionPatchRequest where
  addedPermissions : List Permission
  removedPermissions : List Permission
deriving DecidableEq, Repr

/-- permission.patchPermissions (src/unnamed/part_000:236-244): bind failure
returns 400; otherwise the service result is DISCARDED (`_ = r.service.
PatchPermissions(...)`) and 200 is returned unconditionally.  The engine
operation is a parameter; `none` bind models a malformed body. -/
def patchPermissionsHandler (svc : String → PermissionPatchRequest → Option SvcError)
    (orgId : String) (bound : Option PermissionPatchRequest) : Nat :=
  match bound with
  | none => 400
  | some input =>
      let _ := svc orgId input
      200

/- ===== Concrete fixtures used by counterexamples and witnesses ===== -/

/-- The spec's running scenario (§8): org `acme` declares Resource `invoices`
with Action `approve`; Role `finance` grants `(approve, invoices)` and has
member User `alice`. -/
def acmeOrg : Organization :=
  { id := "o1", identifier := "acme", displayName := "Acme", apiKey := "k",
    resources := [{ id := "res1", identifier := "invoices", displayName := "Invoices",
                    actions := [{ id := "act1", identifier := "approve", displayName := "Approve" }] }],
    users := [{ id := "u1", username := "alice", identifier := "alice" }],
    roles := [{ id := "r1", identifier := "finance", displayName := "Finance",
                users := ["u1"], groups := [],
                permissions := [{ action := "approve", resource := "invoices" }] }],
    groups := [] }

/-- A PatchPermissions request that only removes `(approve, invoices)`. -/
def removeApproveReq : PatchRolePermissionRequest :=
  { addedPermission := [],
    removedPermission := [{ action := "approve", resource := "invoices" }] }

/-- A PatchPermissions request whose added pair is not declared on `acmeOrg`. -/
def badAddReq : PatchRolePermissionRequest :=
  { addedPermission := [{ action := "destroy", resource := "invoices" }],
    removedPermission := [] }

/-- A store holding a single group `g1` of tenant `t1` with member `u1`. -/
def leakDB : SqlDB :=
  { tenantGroups := [{ tenantId := "t1", groupId := "g1", groupKey := "k1", name := "G" }],
    groupUsers := [{ groupId := "g1", userId := "u1" }] }

/-- A check service that allows everything (the service is not reached by the
panicking path). -/
def svcAllowAll : GrpcCheckRequest → String → Except SvcError Bool :=
  fun _ _ => .ok true

/-- A concrete gRPC check request. -/
def grpcReq0 : GrpcCheckRequest :=
  { username := "alice", action := "approve", resource := "invoices", organization := "acme" }

/-- An engine operation that fails every patch with InvalidInput. -/
def svcFailInvalid : String → PermissionPatchRequest → Option SvcError :=
  fun _ _ => some (.invalidInput "Invalid permission")

/-- A concrete permission patch body. -/
def ppReq0 : PermissionPatchRequest :=
  { addedPermissions := [{ action := "destroy", resource := "invoices" }],
    removedPermissions := [] }

/-- A GORM store with two resources, their actions, and role permissions
referencing both — satisfying §3 invariant 1. -/
def gormDB0 : GormDB :=
  { resources := [{ id := "res1", projectId := "p1" }, { id := "res2", projectId := "p1" }],
    actions := [{ id := "a1", resourceId := "res1" }, { id := "a2", resourceId := "res2" }],
    resourceRoles := [{ roleId := "r1", actionId := "a1", resourceId := "res1" },
                      { roleId := "r1", actionId := "a2", resourceId := "res2" }] }

/-- A resource store holding one resource of organization `o1`. -/
def resStore0 : ResourceStore :=
  { resources := [("o1", { id := "id1", key := "k1", name := "old" })] }

/-- The empty resource store. -/
def resStore1 : ResourceStore := { resources := [] }

/-- An update request that only adds the already-assigned member `u1`. -/
def noopUpdateReq : UpdateRoleRequest :=
  { displayName := none, addedUsers := ["u1"], removedUser := [] }

/-- A group patch that re-adds the member `u1` and removes the non-member `u2`. -/
def noopGroupPatch : GroupPatchRequest :=
  { operations := [{ operation := "add", users := ["u1"] },
                   { operation := "remove", users := ["u2"] }] }

/-- A role-creation request referencing a user id absent from `acmeOrg`. -/
def badCreateReq : CreateRoleRequest :=
  { identifier := "newrole", displayName := "New Role", users := ["u_missing"] }

/-- A role-update request adding a user id absent from `acmeOrg`. -/
def badUpdateReq : UpdateRoleRequest :=
  { displayName := none, addedUsers := ["u_missing"], removedUser := [] }

/- ===== Helper lemmas ===== -/

/-- `find?` splits its list at the first element satisfying the predicate. -/
theorem find?_split {α : Type} (p : α → Bool) (l : List α) (a : α)
    (h : l.find? p = some a) :
    ∃ l1 l2, l = l1 ++ a :: l2 ∧ p a = true ∧ ∀ b ∈ l1, p b = false := by
  induction l with
  | nil => simp [List.find?] at h
  | cons x xs ih =>
    by_cases hx : p x = true
    · rw [List.find?_cons_of_pos _ hx] at h
      cases h
      exact ⟨[], xs, rfl, hx, by simp⟩
    · rw [List.find?_cons_of_neg _ hx] at h
      obtain ⟨l1, l2, hl, hpa, hprev⟩ := ih h
      refine ⟨x :: l1, l2, by rw [hl]; rfl, hpa, ?_⟩
      intro b hb
      rcases List.mem_cons.mp hb with hbx | hbl
      · subst hbx; exact Bool.eq_false_iff.mpr hx
      · exact hprev b hbl

/-- A role update carrying no display name and empty member deltas leaves the
organization unchanged. -/
theorem repoUpdateRole_nil (org : Organization) (id : String) :
    repoUpdateRole org id none [] [] = org := by
  unfold repoUpdateRole
  have h : ∀ r : Role, (if r.id == id then
      { r with displayName := (none : Option String).getD r.displayName,
               users := (r.users.filter (fun u => !(([] : List String).contains u))) ++
                 ([] : List String) } else r) = r := by
    intro r
    by_cases hr : r.id == id
    · simp [hr, List.filter_eq_self]
    · simp [hr]
  rw [List.map_congr_left (fun a _ => h a)]
  simp

/-- Adding only already-member users changes nothing. -/
theorem patchGroupAdd_noop (initial : SqlDB) (gid : String) (users : List String)
    (h : ∀ u ∈ users, IsUserInGroup initial gid u = true) :
    ∀ rows, patchGroupAdd initial gid rows users = rows := by
  induction users with
  | nil => intro rows; rfl
  | cons u us ih =>
    intro rows
    have hu := h u (by simp)
    have hrest : ∀ v ∈ us, IsUserInGroup initial gid v = true := fun v hv => h v (by simp [hv])
    unfold patchGroupAdd
    rw [List.foldl_cons, if_pos hu]
    exact ih hrest rows

/-- Removing only non-member users changes nothing. -/
theorem patchGroupRemove_noop (initial : SqlDB) (gid : String) (users : List String)
    (h : ∀ u ∈ users, IsUserInGroup initial gid u = false) :
    ∀ rows, patchGroupRemove initial gid rows users = rows := by
  induction users with
  | nil => intro rows; rfl
  | cons u us ih =>
    intro rows
    have hu := h u (by simp)
    have hrest : ∀ v ∈ us, IsUserInGroup initial gid v = false := fun v hv => h v (by simp [hv])
    unfold patchGroupRemove
    rw [List.foldl_cons, if_pos (by simp [hu])]
    exact ih hrest rows

/-- A patch whose additions are all members and whose removals are all
non-members folds to the identity. -/
theorem patchGroupFold_noop (db : SqlDB) (gid : String) (ops : List GroupPatchOperation)
    (h : ∀ op ∈ ops, (op.operation = "add" → ∀ u ∈ op.users, IsUserInGroup db gid u = true) ∧
        (op.operation = "remove" → ∀ u ∈ op.users, IsUserInGroup db gid u = false)) :
    ∀ rows, ops.foldl (patchGroupStep db gid) rows = rows := by
  induction ops with
  | nil => intro rows; rfl
  | cons op ops ih =>
    intro rows
    have hop := h op (by simp)
    have hrest : ∀ o ∈ ops, (o.operation = "add" → ∀ u ∈ o.users, IsUserInGroup db gid u = true) ∧
        (o.operation = "remove" → ∀ u ∈ o.users, IsUserInGroup db gid u = false) :=
      fun o ho => h o (by simp [ho])
    rw [List.foldl_cons]
    have hstep : patchGroupStep db gid rows op = rows := by
      unfold patchGroupStep
      by_cases ha : op.operation = "add"
      · rw [if_pos (by simp [ha])]
        exact patchGroupAdd_noop db gid op.users (hop.1 ha) rows
      · rw [if_neg (by simp [ha])]
        by_cases hr : op.operation = "remove"
        · rw [if_pos (by simp [hr])]
          exact patchGroupRemove_noop db gid op.users (hop.2 hr) rows
        · rw [if_neg (by simp [hr])]
    rw [hstep]
    exact ih hrest rows

/- ===== Claim theorems ===== -/

/-- C1: the claim says PatchPermissions applies both additions and removals,
and that after a removal of `(approve, invoices)` the pair is gone and Check
denies.  The source drops `req.RemovedPermission` when building the repository
patch, so on the spec's own scenario the successful call leaves the pair in the
role's permission set and a subsequent Check still allows. -/
theorem patchPermission_drops_removals :
    (PatchPermission acmeOrg "r1" removeApproveReq).1 = none ∧
    (PatchPermission acmeOrg "r1" removeApproveReq).2 = acmeOrg ∧
    (repoGetRole (PatchPermission acmeOrg "r1" removeApproveReq).2 "r1").map Role.permissions =
      some [{ action := "approve", resource := "invoices" }] ∧
    Check (PatchPermission acmeOrg "r1" removeApproveReq).2 [] "alice" "approve" "invoices" =
      .ok true := by
  refine ⟨by decide, by decide, by decide, rfl⟩

/-- C3: with call metadata present but carrying no API_KEY entry, the gRPC
Check handler evaluates `md.Get("API_KEY")[0]` on an empty slice, a runtime
panic — not a reported Unauthorized error; with metadata wholly absent it does
return a reported error. -/
theorem grpcCheck_missing_api_key_panics :
    grpcCheck svcAllowAll (some [("other", ["v"])]) grpcReq0 = GrpcResult.panicked ∧
    grpcCheck svcAllowAll none grpcReq0 = GrpcResult.err "missing metadata from request" := by
  exact ⟨rfl, rfl⟩

/-- C4: the patchPermissions HTTP handler discards the engine result
(`_ = r.service.PatchPermissions(...)`) and acknowledges with status 200 even
when the engine operation failed. -/
theorem patchPermissions_handler_acknowledges_failure :
    svcFailInvalid "acme" ppReq0 = some (.invalidInput "Invalid permission") ∧
    patchPermissionsHandler svcFailInvalid "acme" (some ppReq0) = 200 := by
  exact ⟨rfl, rfl⟩

/-- C2 counterexample: the group-existence-by-id query is keyed by group id
only.  Tenant `t2` owns no group and no membership row, yet the query issued on
its behalf matches tenant `t1`'s group `g1`, and the membership query matches
`t1`'s row — entities of one organization observed from another. -/
theorem group_exists_by_id_crosses_tenants :
    CheckGroupExistsById leakDB "g1" = true ∧
    (tenantView leakDB "t2").tenantGroups = [] ∧
    CheckGroupExistsById (tenantView leakDB "t2") "g1" = false ∧
    IsUserInGroup leakDB "g1" "u1" = true ∧
    (tenantView leakDB "t2").groupUsers = [] := by
  refine ⟨by decide, by decide, by decide, by decide, by decide⟩

/-- C2 amended: group queries keyed by the tenant-scoped group key are
organization-scoped, but the existence-by-id query matches groups of any
tenant, the group-user membership query has no tenant in scope at all, and the
resource duplicate-key check's outcome is independent of the requesting
organization. -/
theorem tenant_scoping_partial (db : SqlDB) (t key id gid uid : String)
    (st : ResourceStore) (o1 o2 : String) (req : CreateResourceRequest) (fid : String) :
    (CheckGroupExistsByKey db t key = true ↔
      ∃ g ∈ db.tenantGroups, g.tenantId = t ∧ g.groupKey = key) ∧
    (CheckGroupExistsById db id = true ↔ ∃ g ∈ db.tenantGroups, g.groupId = id) ∧
    (IsUserInGroup db gid uid = true ↔
      ∃ r ∈ db.groupUsers, r.groupId = gid ∧ r.userId = uid) ∧
    (resourceCreate st o1 req fid).1 = (resourceCreate st o2 req fid).1 := by
  refine ⟨?_, ?_, ?_, ?_⟩
  · simp [CheckGroupExistsByKey, List.any_eq_true]
  · simp [CheckGroupExistsById, List.any_eq_true]
  · simp [IsUserInGroup, List.any_eq_true]
  · unfold resourceCreate
    by_cases hk : req.key == ""
    · simp [hk]
    · by_cases he : ExistByKey st req.key
      · simp [hk, he]
      · simp [hk, he]

/-- C5: when some added permission's pair is not declared, PatchPermission
fails with InvalidInput naming the first offending pair and performs no write
(the resulting state is the unchanged organization). -/
theorem patchPermission_invalid_added_fail_fast (org : Organization) (roleId : String)
    (req : PatchRolePermissionRequest)
    (h : ∃ p ∈ req.addedPermission, CheckResourceActionExists org p.resource p.action = false) :
    (PatchPermission org roleId req).2 = org ∧
    ∃ p l1 l2, req.addedPermission = l1 ++ p :: l2 ∧
      CheckResourceActionExists org p.resource p.action = false ∧
      (∀ q ∈ l1, CheckResourceActionExists org q.resource q.action = true) ∧
      (PatchPermission org roleId req).1 = some (.invalidInput
        ("Invalid permission, Resource : " ++ p.resource ++ " Action : " ++ p.action)) := by
  obtain ⟨p0, hp0mem, hp0⟩ := h
  have hsome : (req.addedPermission.find?
      (fun p => !(CheckResourceActionExists org p.resource p.action))).isSome = true := by
    rw [List.find?_isSome]
    exact ⟨p0, hp0mem, by simp [hp0]⟩
  obtain ⟨p1, hp1⟩ := Option.isSome_iff_exists.mp hsome
  obtain ⟨l1, l2, hsplit, hpa, hprev⟩ := find?_split _ _ _ hp1
  refine ⟨by simp [PatchPermission, hp1], p1, l1, l2, hsplit, by simpa using hpa, ?_,
    by simp [PatchPermission, hp1]⟩
  intro q hq
  simpa using hprev q hq

/-- C5 witness: the fail-fast theorem at the `acme` fixture with an undeclared
added pair. -/
theorem patchPermission_invalid_added_fail_fast_witness :
    (PatchPermission acmeOrg "r1" badAddReq).2 = acmeOrg ∧
    ∃ p l1 l2, badAddReq.addedPermission = l1 ++ p :: l2 ∧
      CheckResourceActionExists acmeOrg p.resource p.action = false ∧
      (∀ q ∈ l1, CheckResourceActionExists acmeOrg q.resource q.action = true) ∧
      (PatchPermission acmeOrg "r1" badAddReq).1 = some (.invalidInput
        ("Invalid permission, Resource : " ++ p.resource ++ " Action : " ++ p.action)) :=
  patchPermission_invalid_added_fail_fast acmeOrg "r1" badAddReq
    ⟨{ action := "destroy", resource := "invoices" }, by decide, by decide⟩

/-- C6: a membership patch whose additions are all already assigned and whose
removals are all not members succeeds and leaves both the role's membership
(UpdateRole path) and the group's membership (PatchGroup path) unchanged —
no-ops, not errors. -/
theorem membership_patch_noop
    (org : Organization) (id : String) (req : UpdateRoleRequest)
    (db : SqlDB) (gid : String) (patch : GroupPatchRequest)
    (hrole : (repoGetRole org id).isSome = true)
    (hex1 : ∀ u ∈ req.addedUsers, CheckUserExistById org u = true)
    (hex2 : ∀ u ∈ req.removedUser, CheckUserExistById org u = true)
    (hadd : ∀ u ∈ req.addedUsers, CheckUserAlreadyAssignToRoleById org id u = true)
    (hrem : ∀ u ∈ req.removedUser, CheckUserAlreadyAssignToRoleById org id u = false)
    (hdisp : req.displayName = none)
    (hg : ∀ op ∈ patch.operations,
        (op.operation = "add" → ∀ u ∈ op.users, IsUserInGroup db gid u = true) ∧
        (op.operation = "remove" → ∀ u ∈ op.users, IsUserInGroup db gid u = false)) :
    (roleUpdate org id req).1 = none ∧ (roleUpdate org id req).2 = org ∧
    PatchGroup db gid patch = db := by
  obtain ⟨r0, hr0⟩ := Option.isSome_iff_exists.mp hrole
  have hf1 : req.addedUsers.find? (fun u => !(CheckUserExistById org u)) = none := by
    rw [List.find?_eq_none]
    intro u hu; simp [hex1 u hu]
  have hf2 : req.removedUser.find? (fun u => !(CheckUserExistById org u)) = none := by
    rw [List.find?_eq_none]
    intro u hu; simp [hex2 u hu]
  have hfa : req.addedUsers.filter (fun u => !(CheckUserAlreadyAssignToRoleById org id u)) = [] := by
    rw [List.filter_eq_nil_iff]
    intro u hu; simp [hadd u hu]
  have hfr : req.removedUser.filter (fun u => CheckUserAlreadyAssignToRoleById org id u) = [] := by
    rw [List.filter_eq_nil_iff]
    intro u hu; simp [hrem u hu]
  have hroleu : roleUpdate org id req = (none, org) := by
    unfold roleUpdate
    simp only [hr0, hf1, hf2, hdisp, hfa, hfr, repoUpdateRole_nil]
  refine ⟨by rw [hroleu], by rw [hroleu], ?_⟩
  unfold PatchGroup
  rw [patchGroupFold_noop db gid patch.operations hg]

/-- C6 witness: the no-op theorem at the `acme` fixture (re-adding assigned
member `u1`) and the `leakDB` fixture (re-adding member `u1`, removing
non-member `u2`). -/
theorem membership_patch_noop_witness :
    (roleUpdate acmeOrg "r1" noopUpdateReq).1 = none ∧
    (roleUpdate acmeOrg "r1" noopUpdateReq).2 = acmeOrg ∧
    PatchGroup leakDB "g1" noopGroupPatch = leakDB :=
  membership_patch_noop acmeOrg "r1" noopUpdateReq leakDB "g1" noopGroupPatch
    (by decide) (by decide) (by decide) (by decide) (by decide) rfl (by decide)

/-- C7: for role Create and Update, every listed user id is existence-checked
in the organization; if some referenced user does not exist the operation
fails with InvalidInput and the organization state is unchanged (no write). -/
theorem role_mutation_checks_user_existence
    (org : Organization) (req : CreateRoleRequest) (rid : String)
    (org2 : Organization) (id2 : String) (req2 : UpdateRoleRequest)
    (h1 : ¬req.identifier = "")
    (h2 : CheckRoleExistsByIdentifier org req.identifier = false)
    (h3 : ∃ u ∈ req.users, CheckUserExistById org u = false)
    (h4 : (repoGetRole org2 id2).isSome = true)
    (h5 : ∃ u ∈ req2.addedUsers ++ req2.removedUser, CheckUserExistById org2 u = false) :
    ((roleCreate org req rid).2 = org ∧
      ∃ u ∈ req.users, CheckUserExistById org u = false ∧
        (roleCreate org req rid).1 = some (.invalidInput ("Invalid user id " ++ u))) ∧
    ((roleUpdate org2 id2 req2).2 = org2 ∧
      ∃ u ∈ req2.addedUsers ++ req2.removedUser, CheckUserExistById org2 u = false ∧
        (roleUpdate org2 id2 req2).1 = some (.invalidInput ("Invalid role id " ++ u))) := by
  constructor
  · obtain ⟨u0, hu0mem, hu0⟩ := h3
    have hsome : (req.users.find? (fun u => !(CheckUserExistById org u))).isSome = true := by
      rw [List.find?_isSome]
      exact ⟨u0, hu0mem, by simp [hu0]⟩
    obtain ⟨u1, hu1⟩ := Option.isSome_iff_exists.mp hsome
    have hu1mem := List.mem_of_find?_eq_some hu1
    have hu1false : CheckUserExistById org u1 = false := by simpa using List.find?_some hu1
    have hbeq : (req.identifier == "") = false := by simpa using h1
    exact ⟨by simp [roleCreate, hbeq, h2, hu1], u1, hu1mem, hu1false,
      by simp [roleCreate, hbeq, h2, hu1]⟩
  · obtain ⟨r0, hr0⟩ := Option.isSome_iff_exists.mp h4
    by_cases hA : ∃ u ∈ req2.addedUsers, CheckUserExistById org2 u = false
    · obtain ⟨u0, hu0mem, hu0⟩ := hA
      have hsome : (req2.addedUsers.find? (fun u => !(CheckUserExistById org2 u))).isSome = true := by
        rw [List.find?_isSome]
        exact ⟨u0, hu0mem, by simp [hu0]⟩
      obtain ⟨u1, hu1⟩ := Option.isSome_iff_exists.mp hsome
      have hu1mem := List.mem_of_find?_eq_some hu1
      have hu1false : CheckUserExistById org2 u1 = false := by simpa using List.find?_some hu1
      exact ⟨by simp [roleUpdate, hr0, hu1], u1, List.mem_append_left _ hu1mem, hu1false,
        by simp [roleUpdate, hr0, hu1]⟩
    · have hAall : ∀ u ∈ req2.addedUsers, CheckUserExistById org2 u = true := by
        intro u hu
        by_contra hc
        exact hA ⟨u, hu, by simpa using hc⟩
      have hf1 : req2.addedUsers.find? (fun u => !(CheckUserExistById org2 u)) = none := by
        rw [List.find?_eq_none]
        intro u hu; simp [hAall u hu]
      obtain ⟨u0, hu0mem, hu0⟩ := h5
      have hu0rem : u0 ∈ req2.removedUser := by
        rcases List.mem_append.mp hu0mem with hin | hin
        · exact absurd hu0 (by simp [hAall u0 hin])
        · exact hin
      have hsome : (req2.removedUser.find? (fun u => !(CheckUserExistById org2 u))).isSome = true := by
        rw [List.find?_isSome]
        exact ⟨u0, hu0rem, by simp [hu0]⟩
      obtain ⟨u1, hu1⟩ := Option.isSome_iff_exists.mp hsome
      have hu1mem := List.mem_of_find?_eq_some hu1
      have hu1false : CheckUserExistById org2 u1 = false := by simpa using List.find?_some hu1
      exact ⟨by simp [roleUpdate, hr0, hf1, hu1], u1, List.mem_append_right _ hu1mem, hu1false,
        by simp [roleUpdate, hr0, hf1, hu1]⟩

/-- C7 witness: the existence-check theorem at the `acme` fixture, with a
creation request and an update request each referencing the absent user id
`u_missing`. -/
theorem role_mutation_checks_user_existence_witness :
    ((roleCreate acmeOrg badCreateReq "r9").2 = acmeOrg ∧
      ∃ u ∈ badCreateReq.users, CheckUserExistById acmeOrg u = false ∧
        (roleCreate acmeOrg badCreateReq "r9").1 =
          some (.invalidInput ("Invalid user id " ++ u))) ∧
    ((roleUpdate acmeOrg "r1" badUpdateReq).2 = acmeOrg ∧
      ∃ u ∈ badUpdateReq.addedUsers ++ badUpdateReq.removedUser,
        CheckUserExistById acmeOrg u = false ∧
        (roleUpdate acmeOrg "r1" badUpdateReq).1 =
          some (.invalidInput ("Invalid role id " ++ u))) :=
  role_mutation_checks_user_existence acmeOrg badCreateReq "r9" acmeOrg "r1" badUpdateReq
    (by decide) (by decide) ⟨"u_missing", by decide, by decide⟩ (by decide)
    ⟨"u_missing", by decide, by decide⟩

/-- C8: CheckAll and CheckPermissions are pointwise identical, in input order,
to evaluating the single-pair Check independently per pair. -/
theorem batch_check_pointwise (org : Organization) (tuples : List Tuple) (subj : String)
    (pairs : List (String × String)) (actions : List String) (res : String) (i j : Nat) :
    (CheckAll org tuples subj pairs)[i]? =
      (pairs[i]?).map (fun pr => Check org tuples subj pr.1 pr.2) ∧
    (CheckPermissions org tuples subj actions res)[j]? =
      (actions[j]?).map (fun a => Check org tuples subj a res) := by
  constructor
  · simp [CheckAll, List.getElem?_map]
  · simp [CheckPermissions, List.getElem?_map]

/-- C9: deleting a resource removes its actions and every role permission
referencing it, deletes the resource row, and preserves §3 invariant 1 (no
dangling role permissions). -/
theorem delete_resource_preserves_permission_refs (db : GormDB) (resId : String)
    (h : PermissionRefsValid db) :
    PermissionRefsValid (DeleteResource db resId) ∧
    (∀ a ∈ (DeleteResource db resId).actions, a.resourceId ≠ resId) ∧
    (∀ p ∈ (DeleteResource db resId).resourceRoles, p.resourceId ≠ resId) ∧
    (∀ r ∈ (DeleteResource db resId).resources, r.id ≠ resId) := by
  have hd : DeleteResource db resId =
      { resources := db.resources.filter (fun r => !(r.id == resId)),
        actions := db.actions.filter (fun a => !(a.resourceId == resId)),
        resourceRoles := db.resourceRoles.filter (fun p => !(p.resourceId == resId)) } := rfl
  refine ⟨?_, ?_, ?_, ?_⟩
  · intro p hp
    rw [hd] at hp
    obtain ⟨hp1, hp2⟩ := List.mem_filter.mp hp
    have hp2ne : p.resourceId ≠ resId := by simpa using hp2
    obtain ⟨⟨a, ha, haid, hares⟩, ⟨r, hr, hrid⟩⟩ := h p hp1
    rw [hd]
    constructor
    · exact ⟨a, List.mem_filter.mpr ⟨ha, by simp [hares, hp2ne]⟩, haid, hares⟩
    · exact ⟨r, List.mem_filter.mpr ⟨hr, by simp [hrid, hp2ne]⟩, hrid⟩
  · intro a ha
    rw [hd] at ha
    simpa using (List.mem_filter.mp ha).2
  · intro p hp
    rw [hd] at hp
    simpa using (List.mem_filter.mp hp).2
  · intro r hr
    rw [hd] at hr
    simpa using (List.mem_filter.mp hr).2

/-- C9 witness: the cascade theorem at a two-resource store satisfying the
invariant. -/
theorem delete_resource_preserves_permission_refs_witness :
    PermissionRefsValid (DeleteResource gormDB0 "res1") ∧
    (∀ a ∈ (DeleteResource gormDB0 "res1").actions, a.resourceId ≠ "res1") ∧
    (∀ p ∈ (DeleteResource gormDB0 "res1").resourceRoles, p.resourceId ≠ "res1") ∧
    (∀ r ∈ (DeleteResource gormDB0 "res1").resources, r.id ≠ "res1") :=
  delete_resource_preserves_permission_refs gormDB0 "res1"
    (by unfold PermissionRefsValid; decide)

/-- C10: a successful resource Update writes back exactly the fetched record
with only the Name replaced — ID and Key unchanged — and when the resource is
absent it returns NotFound and performs no store write. -/
theorem resource_update_frame (st : ResourceStore) (orgId id : String)
    (req : UpdateResourceRequest) :
    (∀ r, resourceGet st orgId id = some r →
        (resourceUpdate st orgId id req).1 = .ok { r with name := req.name } ∧
        (resourceUpdate st orgId id req).2 = [(orgId, { r with name := req.name })] ∧
        ({ r with name := req.name } : EntResource).id = r.id ∧
        ({ r with name := req.name } : EntResource).key = r.key) ∧
    (resourceGet st orgId id = none →
        (resourceUpdate st orgId id req).1 =
          .error (.notFound ("Resource " ++ id ++ " not exists.")) ∧
        (resourceUpdate st orgId id req).2 = []) := by
  constructor
  · intro r h
    refine ⟨by simp [resourceUpdate, h], by simp [resourceUpdate, h], rfl, rfl⟩
  · intro h
    exact ⟨by simp [resourceUpdate, h], by simp [resourceUpdate, h]⟩

/-- C10 witness: the frame theorem at a store containing `(o1, id1, k1, old)`
(success case) and at the empty store (NotFound case). -/
theorem resource_update_frame_witness :
    ((resourceUpdate resStore0 "o1" "id1" { name := "new" }).1 =
        .ok { id := "id1", key := "k1", name := "new" } ∧
      (resourceUpdate resStore0 "o1" "id1" { name := "new" }).2 =
        [("o1", { id := "id1", key := "k1", name := "new" })] ∧
      ({ id := "id1", key := "k1", name := "new" } : EntResource).id = "id1" ∧
      ({ id := "id1", key := "k1", name := "new" } : EntResource).key = "k1") ∧
    ((resourceUpdate resStore1 "o1" "id1" { name := "new" }).1 =
        .error (.notFound ("Resource " ++ "id1" ++ " not exists.")) ∧
      (resourceUpdate resStore1 "o1" "id1" { name := "new" }).2 = []) := by
  constructor
  · exact (resource_update_frame resStore0 "o1" "id1" { name := "new" }).1
      { id := "id1", key := "k1", name := "old" } rfl
  · exact (resource_update_frame resStore1 "o1" "id1" { name := "new" }).2 rfl

end Cronuseo
